import Mathlib

/-!
Verification of `src/static/js/main.js` from the Diff_Eq repository.

The file contains two pieces of behaviour:

* `formatEquation(eq)` = `eq.replace(/\*\*/g, '^').replace(/\*/g, '\\cdot ')`
  (lines 21-23): two chained global literal substitutions on a string.
* a `DOMContentLoaded` handler (lines 4-18) that reads
  `window.location.pathname`, queries all `.nav-menu a` links, and for each
  link whose `href` attribute equals the current path sets
  `style.opacity = '1'` and `style.fontWeight = 'bold'`.

Strings are modelled as `List Char`.  JavaScript's
`String.prototype.replace` with a global regex whose pattern is a literal
character sequence performs a left-to-right, non-overlapping replacement of
every occurrence of the pattern; `listReplace` embeds exactly that.
-/

/-- Embedding of JavaScript `s.replace(/pat/g, rep)` for a literal pattern
`pat`: left-to-right scan, replacing each non-overlapping occurrence of
`pat` by `rep` and resuming after the replaced occurrence. -/
def listReplace (pat rep : List Char) : List Char → List Char
  | [] => []
  | c :: cs =>
    if pat.isPrefixOf (c :: cs) ∧ pat ≠ [] then
      rep ++ listReplace pat rep (cs.drop (pat.length - 1))
    else
      c :: listReplace pat rep cs
termination_by l => l.length
decreasing_by
  · simp only [List.length_drop, List.length_cons]
    omega
  · simp only [List.length_cons]
    omega

/-- The six-character replacement string `\cdot ` (the JS source literal
`'\\cdot '` denotes backslash, c, d, o, t, space). -/
def cdot : List Char := ['\\', 'c', 'd', 'o', 't', ' ']

/-- Embedding of `formatEquation` (main.js lines 21-23):
`eq.replace(/\*\*/g, '^').replace(/\*/g, '\\cdot ')`. -/
def formatEquation (eq : List Char) : List Char :=
  listReplace ['*'] cdot (listReplace ['*', '*'] ['^'] eq)

/-- Spec-side description: replace every occurrence of the substring `**`
by `^`, scanning left to right. -/
def specReplaceStarStar : List Char → List Char
  | '*' :: '*' :: rest => '^' :: specReplaceStarStar rest
  | c :: rest => c :: specReplaceStarStar rest
  | [] => []

/-- Spec-side description: replace every occurrence of the character `*`
by the string `\cdot `. -/
def specReplaceStar : List Char → List Char
  | '*' :: rest => cdot ++ specReplaceStar rest
  | c :: rest => c :: specReplaceStar rest
  | [] => []

/-- The inline CSS style of a navigation link: the two properties the
handler touches, plus all other style properties as a map. -/
structure Style where
  opacity : String
  fontWeight : String
  others : String → String

/-- A navigation link (an element matched by `.nav-menu a`): its
attributes as a partial map (`getAttribute` returns `null`, here `none`,
for an absent attribute) and its inline style. -/
structure Link where
  attrs : String → Option String
  style : Style

/-- The document state the handler sees: `window.location.pathname` and
the list of `.nav-menu a` elements in document order. -/
structure PageState where
  location : String
  navLinks : List Link

/-- Body of the `navLinks.forEach` callback (main.js lines 12-17):
if `link.getAttribute('href') === currentPath`, set
`link.style.opacity = '1'` and `link.style.fontWeight = 'bold'`. -/
def highlightLink (currentPath : String) (link : Link) : Link :=
  if link.attrs "href" = some currentPath then
    { link with style := { link.style with opacity := "1", fontWeight := "bold" } }
  else
    link

/-- The `DOMContentLoaded` handler (main.js lines 4-18): reads
`window.location.pathname`, and applies the highlight callback to every
navigation link. -/
def domContentLoaded (st : PageState) : PageState :=
  { st with navLinks := st.navLinks.map (highlightLink st.location) }

/-- Sample data for witnesses: a link whose `href` matches the page path. -/
def sampleLink : Link :=
  { attrs := fun n => if n = "href" then some "/phase-portraits" else none,
    style := { opacity := "0.7", fontWeight := "normal", others := fun _ => "" } }

/-- Sample data for witnesses: a link whose `href` does not match. -/
def otherLink : Link :=
  { attrs := fun n => if n = "href" then some "/integrating-factor" else none,
    style := { opacity := "0.7", fontWeight := "normal", others := fun _ => "" } }

/-- A sample page state on the phase-portraits path with both links. -/
def samplePage : PageState :=
  { location := "/phase-portraits", navLinks := [sampleLink, otherLink] }

/-- The first substitution of `formatEquation` agrees with the spec-side
single-pass description of replacing `**` by `^`. -/
theorem listReplace_starStar (l : List Char) :
    listReplace ['*', '*'] ['^'] l = specReplaceStarStar l := by
  induction l using specReplaceStarStar.induct with
  | case1 rest ih => simp [listReplace, specReplaceStarStar, List.isPrefixOf, ih]
  | case2 c rest h ih =>
    simp [listReplace, specReplaceStarStar, List.isPrefixOf, ih]
    intro hc hp
    obtain ⟨t, ht⟩ := hp
    exact (h t hc.symm ht.symm).elim
  | case3 => simp [listReplace, specReplaceStarStar]

/-- The second substitution of `formatEquation` agrees with the spec-side
single-pass description of replacing `*` by `\cdot `. -/
theorem listReplace_star (l : List Char) :
    listReplace ['*'] cdot l = specReplaceStar l := by
  induction l using specReplaceStar.induct with
  | case1 rest ih => simp [listReplace, specReplaceStar, List.isPrefixOf, ih]
  | case2 c rest h ih =>
    simp [listReplace, specReplaceStar, List.isPrefixOf, ih]
    intro hc
    exact (h hc.symm).elim
  | case3 => simp [listReplace, specReplaceStar]

/-- `formatEquation` as the composition of the two spec-side passes. -/
theorem formatEquation_as_spec (eq : List Char) :
    formatEquation eq = specReplaceStar (specReplaceStarStar eq) := by
  rw [formatEquation, listReplace_starStar, listReplace_star]

/-- The star-elimination pass leaves no `*` in its output. -/
theorem star_not_mem_specReplaceStar (l : List Char) :
    '*' ∉ specReplaceStar l := by
  induction l using specReplaceStar.induct with
  | case1 rest ih => simp [specReplaceStar, cdot, ih]
  | case2 c rest h ih =>
    simp [specReplaceStar, ih]
    intro hc
    exact h hc.symm
  | case3 => simp [specReplaceStar]

/-- The `**` pass is the identity on star-free strings. -/
theorem specReplaceStarStar_of_not_mem (l : List Char) :
    '*' ∉ l → specReplaceStarStar l = l := by
  induction l using specReplaceStarStar.induct with
  | case1 rest ih => intro h; exact absurd (List.mem_cons_self _ _) h
  | case2 c rest hne ih =>
    intro h
    have hrest : '*' ∉ rest := fun hm => h (List.mem_cons_of_mem c hm)
    simp [specReplaceStarStar, ih hrest]
  | case3 => intro h; rfl

/-- The `*` pass is the identity on star-free strings. -/
theorem specReplaceStar_of_not_mem (l : List Char) :
    '*' ∉ l → specReplaceStar l = l := by
  induction l using specReplaceStar.induct with
  | case1 rest ih => intro h; exact absurd (List.mem_cons_self _ _) h
  | case2 c rest hne ih =>
    intro h
    have hrest : '*' ∉ rest := fun hm => h (List.mem_cons_of_mem c hm)
    simp [specReplaceStar, ih hrest]
  | case3 => intro h; rfl

/-- The output of `formatEquation` is star-free. -/
theorem star_not_mem_formatEquation (eq : List Char) :
    '*' ∉ formatEquation eq := by
  rw [formatEquation_as_spec]
  exact star_not_mem_specReplaceStar _

/-- `formatEquation` is the identity on star-free strings. -/
theorem formatEquation_of_not_mem (l : List Char) (h : '*' ∉ l) :
    formatEquation l = l := by
  rw [formatEquation_as_spec, specReplaceStarStar_of_not_mem l h,
    specReplaceStar_of_not_mem l h]

/-- No single global literal substitution reproduces `formatEquation` on
all inputs: any candidate pattern fails on `"*"` or on `"**"`. -/
theorem no_single_listReplace :
    ¬ ∃ pat rep : List Char, ∀ eq : List Char,
        formatEquation eq = listReplace pat rep eq := by
  rintro ⟨pat, rep, h⟩
  have h1 : cdot = listReplace pat rep ['*'] := by
    have h1' := h ['*']
    rw [formatEquation_as_spec] at h1'
    simpa [specReplaceStar, specReplaceStarStar] using h1'
  by_cases hp : pat.isPrefixOf ['*'] ∧ pat ≠ []
  · have hpat : pat = ['*'] := by
      obtain ⟨hpre, hne⟩ := hp
      obtain ⟨t, ht⟩ := List.isPrefixOf_iff_prefix.mp hpre
      cases pat with
      | nil => exact absurd rfl hne
      | cons c cs =>
        cases cs with
        | nil =>
          injection ht with hc ht2
          rw [hc]
        | cons d ds =>
          injection ht with hc ht2
          simp at ht2
    subst hpat
    have hrep : cdot = rep := by
      simpa [listReplace, List.isPrefixOf] using h1
    have h2 := h ['*', '*']
    rw [formatEquation_as_spec, ← hrep, listReplace_star] at h2
    exact absurd h2 (by decide)
  · rw [listReplace] at h1
    rw [if_neg hp, listReplace] at h1
    exact absurd h1 (by decide)

/-- C1: `formatEquation` equals the spec-side composition: first replace
every occurrence of `**` by `^`, then every remaining `*` by `\cdot `,
the two global substitutions applied in exactly that order. -/
theorem formatEquation_spec_order (eq : List Char) :
    formatEquation eq = specReplaceStar (specReplaceStarStar eq) :=
  formatEquation_as_spec eq

/-- C2: `formatEquation "x**2*y"` is exactly the ten-character string
`x^2\cdot y` (single backslash). -/
theorem formatEquation_example :
    formatEquation ("x**2*y".data) = "x^2\\cdot y".data ∧
    "x^2\\cdot y".data = ['x', '^', '2', '\\', 'c', 'd', 'o', 't', ' ', 'y'] := by
  refine ⟨?_, by decide⟩
  rw [formatEquation_as_spec]
  decide

/-- C3: on a string containing neither the substring `**` nor the
character `*`, `formatEquation` is the identity, hence idempotent. -/
theorem formatEquation_id_of_no_star (s : List Char)
    (_h1 : ¬ ['*', '*'] <:+: s) (h2 : '*' ∉ s) :
    formatEquation s = s ∧
    formatEquation (formatEquation s) = formatEquation s := by
  have hid := formatEquation_of_not_mem s h2
  exact ⟨hid, by rw [hid, hid]⟩

/-- Witness for C3 at the star-free string `"x^2 + y"`. -/
theorem formatEquation_id_of_no_star_witness :
    formatEquation ("x^2 + y".data) = "x^2 + y".data ∧
    formatEquation (formatEquation ("x^2 + y".data)) =
      formatEquation ("x^2 + y".data) :=
  formatEquation_id_of_no_star ("x^2 + y".data) (by decide) (by decide)

/-- C4: the handler gives every nav link whose `href` equals the current
path opacity `"1"` and font weight `"bold"`; the updated link is what the
handler stores in the document. -/
theorem nav_highlight_matching (st : PageState) (link : Link)
    (hmem : link ∈ st.navLinks)
    (hhref : link.attrs "href" = some st.location) :
    highlightLink st.location link ∈ (domContentLoaded st).navLinks ∧
    (highlightLink st.location link).style.opacity = "1" ∧
    (highlightLink st.location link).style.fontWeight = "bold" := by
  refine ⟨?_, ?_, ?_⟩
  · simp only [domContentLoaded]
    exact List.mem_map_of_mem _ hmem
  · simp [highlightLink, hhref]
  · simp [highlightLink, hhref]

/-- Witness for C4 on the sample page whose path matches `sampleLink`. -/
theorem nav_highlight_matching_witness :
    highlightLink samplePage.location sampleLink ∈
      (domContentLoaded samplePage).navLinks ∧
    (highlightLink samplePage.location sampleLink).style.opacity = "1" ∧
    (highlightLink samplePage.location sampleLink).style.fontWeight = "bold" :=
  nav_highlight_matching samplePage sampleLink
    (by simp [samplePage]) (by decide)

/-- C5: a nav link whose `href` differs from the current path is left
entirely unchanged by the handler (the same record, all fields intact). -/
theorem nav_nonmatching_unchanged (st : PageState) (i : Nat) (link : Link)
    (hlink : st.navLinks[i]? = some link)
    (hne : link.attrs "href" ≠ some st.location) :
    (domContentLoaded st).navLinks[i]? = some link := by
  simp only [domContentLoaded]
  rw [List.getElem?_map, hlink]
  simp [highlightLink, hne]

/-- Witness for C5: the non-matching `otherLink` is returned unchanged. -/
theorem nav_nonmatching_unchanged_witness :
    (domContentLoaded samplePage).navLinks[1]? = some otherLink :=
  nav_nonmatching_unchanged samplePage 1 otherLink rfl (by decide)

/-- C6 counterexample: `formatEquation` is not a single global literal
substitution — no pattern/replacement pair reproduces it on all inputs. -/
theorem formatEquation_not_single_substitution :
    ¬ ∃ pat rep : List Char, ∀ eq : List Char,
        formatEquation eq = listReplace pat rep eq :=
  no_single_listReplace

/-- C6 (amended): the file performs two unconditional side-effect-only
actions: `formatEquation` is total and is exactly the composition of two
global literal substitutions (not expressible as one), and the handler is
total, its only action mapping the highlight update over the nav links. -/
theorem js_two_actions :
    (∀ eq : List Char,
        formatEquation eq =
          listReplace ['*'] cdot (listReplace ['*', '*'] ['^'] eq)) ∧
    (¬ ∃ pat rep : List Char, ∀ eq : List Char,
        formatEquation eq = listReplace pat rep eq) ∧
    (∀ st : PageState,
        domContentLoaded st =
          { st with navLinks := st.navLinks.map (highlightLink st.location) }) :=
  ⟨fun _ => rfl, no_single_listReplace, fun _ => rfl⟩

/-- C7: the output of `formatEquation` never contains the character `*`. -/
theorem formatEquation_output_no_star (eq : List Char) :
    '*' ∉ formatEquation eq :=
  star_not_mem_formatEquation eq

/-- C8: `formatEquation` is idempotent on every input string. -/
theorem formatEquation_idem (s : List Char) :
    formatEquation (formatEquation s) = formatEquation s :=
  formatEquation_of_not_mem _ (star_not_mem_formatEquation s)

/-- C9: the handler never changes `window.location`, never changes any
link's attributes (in particular `href`) or any style property other than
`opacity` and `fontWeight`, and changes nothing at all on links whose
`href` differs from the current path. -/
theorem nav_handler_frame (st : PageState) (i : Nat) (link : Link)
    (hlink : st.navLinks[i]? = some link) :
    (domContentLoaded st).location = st.location ∧
    ∃ link', (domContentLoaded st).navLinks[i]? = some link' ∧
      link'.attrs = link.attrs ∧
      link'.style.others = link.style.others ∧
      (link.attrs "href" ≠ some st.location → link' = link) := by
  refine ⟨rfl, highlightLink st.location link, ?_, ?_, ?_, ?_⟩
  · simp only [domContentLoaded]
    rw [List.getElem?_map, hlink]
    rfl
  · by_cases hc : link.attrs "href" = some st.location <;>
      simp [highlightLink, hc]
  · by_cases hc : link.attrs "href" = some st.location <;>
      simp [highlightLink, hc]
  · intro hne
    simp [highlightLink, hne]

/-- Witness for C9 at the sample page and its first link. -/
theorem nav_handler_frame_witness :
    (domContentLoaded samplePage).location = samplePage.location ∧
    ∃ link', (domContentLoaded samplePage).navLinks[0]? = some link' ∧
      link'.attrs = sampleLink.attrs ∧
      link'.style.others = sampleLink.style.others ∧
      (sampleLink.attrs "href" ≠ some samplePage.location → link' = sampleLink) :=
  nav_handler_frame samplePage 0 sampleLink rfl
